import Mathlib

/-!
# Scrolling text canvas

A shallow embedding of `cmd/fyneterm_text_canvas/main.go`: the `TextCanvas`
struct, its constructor `NewTextCanvas`, the mutators `Append` and `Scroll`,
the rasteriser `render`, the one-slot update channel (`requestUpdate`) and one
iteration of `updateLoop` (`tick`).

Modelling conventions.

* Go `int` is the 64-bit two's complement integer.  The one addition that can
  leave its range on values the API accepts, `tc.scrollOff += offset` in
  `Scroll`, is wrapped with `wrapInt`.  For a canvas whose fields are Go ints
  with `lineHeight > 0` and `height ≥ 0` (every canvas `NewTextCanvas` builds
  has `lineHeight = 14`), the quotient `tc.height / tc.lineHeight`, the
  differences `len(tc.lines) - tc.height/tc.lineHeight` and the sum
  `start + linesPerPage` of `render` stay in range, so they are kept exact.
* The dot of the `font.Drawer` is a `fixed.Point26_6`: two 32-bit integers in
  26.6 fixed point.  Its arithmetic is wrapped with `wrapInt32`.
* A Go panic (division by zero, slice bounds out of range) is the result
  `none`.  Allocation of the pixel buffer is left to the runtime.
* The image is abstracted to a `Frame`: the filled rectangle, the two colours
  and the list of `DrawString` calls with the position of the dot at each
  call.  The font face is external (`golang.org/x/image/font`); it enters only
  through the horizontal advance `face : String → Int` it gives a string.
* The mutex is not modelled: every operation is one atomic step.
-/

namespace Fyneterm

/-! ## Machine arithmetic -/

/-- Smallest value of a 64-bit Go `int`. -/
def minInt : Int := -9223372036854775808

/-- Largest value of a 64-bit Go `int`. -/
def maxInt : Int := 9223372036854775807

/-- Two's complement wrap-around of a 64-bit signed result. -/
def wrapInt (x : Int) : Int :=
  (x + 9223372036854775808) % 18446744073709551616 - 9223372036854775808

/-- Go's integer division `a / b`: a panic on a zero divisor, otherwise the
quotient truncated toward zero. -/
def goDiv (a b : Int) : Option Int :=
  if b = 0 then none else some (Int.tdiv a b)

/-- Go's slice expression `l[lo:hi]`: out-of-range bounds panic.  (Go compares
`hi` with the capacity; the model compares with the length, which is at most
the capacity.) -/
def goSlice {α : Type} (l : List α) (lo hi : Int) : Option (List α) :=
  if 0 ≤ lo ∧ lo ≤ hi ∧ hi ≤ (l.length : Int) then
    some ((l.drop lo.toNat).take (hi - lo).toNat)
  else none

/-- Two's complement wrap-around of a 32-bit signed result, the width of
`fixed.Int26_6`. -/
def wrapInt32 (x : Int) : Int := (x + 2147483648) % 4294967296 - 2147483648

/-- The conversion `fixed.I(i) = Int26_6(i << 6)`: an integer number of pixels in
26.6 fixed point, cut to 32 bits. -/
def fixedI (i : Int) : Int := wrapInt32 (i * 64)

/-! ## Data model -/

/-- The fields of the Go struct `TextCanvas` that the operations read or write.
`updateCh` is the channel of capacity one: `true` when it holds its one
element. -/
structure TextCanvas where
  lines : List String
  viewportH : Int
  scrollOff : Int
  lineHeight : Int
  width : Int
  height : Int
  updateCh : Bool
deriving DecidableEq, Repr

/-- A colour, as in `color.RGBA`. -/
structure RGBA where
  r : Nat
  g : Nat
  b : Nat
  a : Nat
deriving DecidableEq, Repr

/-- One call `d.DrawString(text)` together with the dot at which it starts. -/
structure DrawCall where
  X : Int
  Y : Int
  text : String
deriving DecidableEq, Repr

/-- What `render` returns: the rectangle `image.Rect(0, 0, width, height)`
filled with `background`, and the strings drawn over it in `ink`. -/
structure Frame where
  width : Int
  height : Int
  background : RGBA
  ink : RGBA
  calls : List DrawCall
deriving DecidableEq, Repr

/-- The state of a `font.Drawer` during `render`: its dot and what it has
drawn so far. -/
structure Drawer where
  DotX : Int
  DotY : Int
  calls : List DrawCall
deriving DecidableEq, Repr

/-- The call `d.DrawString(s)`: draws `s` at the dot, then moves the dot right by
the advance of `s` in the font face. -/
def Drawer.DrawString (face : String → Int) (d : Drawer) (s : String) : Drawer :=
  { d with DotX := wrapInt32 (d.DotX + face s), calls := d.calls ++ [⟨d.DotX, d.DotY, s⟩] }

/-- Advance of a string in `basicfont.Face7x13`: seven pixels per rune. -/
def face7x13 (s : String) : Int := fixedI (7 * (s.length : Int))

/-! ## Operations -/

/-- The non-blocking send of `requestUpdate`: fills the slot when it is free,
does nothing when it is taken. -/
def requestUpdate (tc : TextCanvas) : TextCanvas :=
  if tc.updateCh then tc else { tc with updateCh := true }

/-- The body of the loop of `render`, for one line. -/
def drawLine (face : String → Int) (lineHeight : Int) (d : Drawer) (line : String) : Drawer :=
  let d1 := { d with DotX := fixedI 2 }
  let d2 := d1.DrawString face line
  { d2 with DotY := wrapInt32 (d2.DotY + fixedI lineHeight) }

/-- The two clamps of `render` on `tc.scrollOff`, in source order. -/
def clampOffset (scrollOff totalLines linesPerPage : Int) : Int :=
  let s := if scrollOff > totalLines - linesPerPage then totalLines - linesPerPage else scrollOff
  if s < 0 then 0 else s

/-- The bounds `start` and `end` that `render` passes to the slice expression
`tc.lines[start:end]`. -/
def renderBounds (tc : TextCanvas) : Option (Int × Int) :=
  match goDiv tc.height tc.lineHeight with
  | none => none
  | some linesPerPage =>
    let totalLines : Int := tc.lines.length
    let start := clampOffset tc.scrollOff totalLines linesPerPage
    let stop := start + linesPerPage
    some (start, if stop > totalLines then totalLines else stop)

/-- The method `render`: the canvas after the call (its `scrollOff` is
overwritten by the clamped value) and the frame drawn. -/
def render (face : String → Int) (tc : TextCanvas) : Option (TextCanvas × Frame) :=
  match renderBounds tc with
  | none => none
  | some (start, stop) =>
    match goSlice tc.lines start stop with
    | none => none
    | some visible =>
      let d := visible.foldl (drawLine face tc.lineHeight) ⟨fixedI 2, fixedI tc.lineHeight, []⟩
      some ({ tc with scrollOff := start },
        ⟨tc.width, tc.height, ⟨0, 0, 0, 255⟩, ⟨200, 200, 200, 255⟩, d.calls⟩)

/-- The constructor `NewTextCanvas`: an empty canvas with line height 14, on
which `render` is called once. -/
def NewTextCanvas (face : String → Int) (width height : Int) : Option TextCanvas :=
  match render face ⟨[], 0, 0, 14, width, height, false⟩ with
  | none => none
  | some (tc, _) => some tc

/-- The eviction of `Append`: `if len(l) > 10000 { l = l[len(l)-10000:] }`. -/
def trimLines (l : List String) : List String :=
  if l.length > 10000 then l.drop (l.length - 10000) else l

/-- The method `Append`. -/
def Append (tc : TextCanvas) (line : String) : Option TextCanvas :=
  let l2 := trimLines (tc.lines ++ [line])
  match goDiv tc.height tc.lineHeight with
  | none => none
  | some linesPerPage =>
    some (requestUpdate { tc with lines := l2, scrollOff := (l2.length : Int) - linesPerPage })

/-- The method `Scroll`. -/
def Scroll (tc : TextCanvas) (offset : Int) : Option TextCanvas :=
  let s1 := wrapInt (tc.scrollOff + offset)
  let s2 := if s1 < 0 then 0 else s1
  match goDiv tc.height tc.lineHeight with
  | none => none
  | some linesPerPage =>
    let maxOff := (tc.lines.length : Int) - linesPerPage
    some (requestUpdate { tc with scrollOff := if s2 > maxOff then maxOff else s2 })

/-- One iteration of the loop of `updateLoop`, at a tick of the ticker: when the
channel holds a request it is received and `render` runs once; otherwise
nothing happens.  The second component is the frame installed, if any. -/
def tick (face : String → Int) (tc : TextCanvas) : Option (TextCanvas × Option Frame) :=
  if tc.updateCh then
    match render face { tc with updateCh := false } with
    | none => none
    | some (tc1, img) => some (tc1, some img)
  else some (tc, none)

/-- A call of one of the two mutators. -/
inductive Op where
  | append (line : String)
  | scroll (offset : Int)
deriving DecidableEq, Repr

/-- Performs one mutator call. -/
def step (tc : TextCanvas) : Op → Option TextCanvas
  | .append line => Append tc line
  | .scroll offset => Scroll tc offset

/-- Performs a sequence of mutator calls, left to right. -/
def run (tc : TextCanvas) : List Op → Option TextCanvas
  | [] => some tc
  | op :: ops => (step tc op).bind fun tc1 => run tc1 ops

/-- Calls `Append` on each line in turn. -/
def appendAll (tc : TextCanvas) (ls : List String) : Option TextCanvas :=
  run tc (ls.map Op.append)

/-- The label of the i-th line of the scenarios. -/
def lineLabel (i : Nat) : String := "line " ++ toString i

/-- The number of lines that fit the viewport, `tc.height / tc.lineHeight`. -/
def linesPerPage (tc : TextCanvas) : Option Int := goDiv tc.height tc.lineHeight

/-- The calls the loop of `render` is expected to make for the visible lines,
the first one at baseline `y`: every one at the left margin, each one line
height below the previous one. -/
def marginCalls (lineHeight : Int) : Int → List String → List DrawCall
  | _, [] => []
  | y, line :: rest =>
    ⟨fixedI 2, y, line⟩ :: marginCalls lineHeight (wrapInt32 (y + fixedI lineHeight)) rest

/-- The lines `render` draws from a canvas in which it succeeds. -/
def visibleLines (tc : TextCanvas) (linesPerPage : Int) : List String :=
  (tc.lines.drop (clampOffset tc.scrollOff tc.lines.length linesPerPage).toNat).take
    linesPerPage.toNat

/-- A canvas with three lines, a two-line viewport and an over-large offset. -/
def sampleCanvas : TextCanvas := ⟨["a", "b", "c"], 0, 7, 14, 800, 28, false⟩

/-! ## The eagerly clamping reference model -/

/-- State of the reference model: the buffer and an offset that is clamped at
every mutation. -/
structure RefCanvas where
  lines : List String
  offset : Int
deriving DecidableEq, Repr

/-- Reference `Append`: keep the most recent 10000 lines and set
`offset = max(0, totalLines - linesPerPage)`. -/
def refAppend (linesPerPage : Int) (r : RefCanvas) (line : String) : RefCanvas :=
  let l := (r.lines ++ [line]).drop ((r.lines ++ [line]).length - 10000)
  ⟨l, max 0 ((l.length : Int) - linesPerPage)⟩

/-- Reference `Scroll`:
`offset = min(max(offset + delta, 0), max(0, totalLines - linesPerPage))`, over
the mathematical integers. -/
def refScroll (linesPerPage : Int) (r : RefCanvas) (delta : Int) : RefCanvas :=
  ⟨r.lines, min (max (r.offset + delta) 0) (max 0 ((r.lines.length : Int) - linesPerPage))⟩

/-- One mutator call in the reference model. -/
def refStep (linesPerPage : Int) (r : RefCanvas) : Op → RefCanvas
  | .append line => refAppend linesPerPage r line
  | .scroll delta => refScroll linesPerPage r delta

/-- A sequence of mutator calls in the reference model. -/
def refRun (linesPerPage : Int) (r : RefCanvas) : List Op → RefCanvas
  | [] => r
  | op :: ops => refRun linesPerPage (refStep linesPerPage r op) ops

/-- The lines the reference model shows: the range `[offset, offset + linesPerPage)`
cut to the buffer. -/
def refVisible (linesPerPage : Int) (r : RefCanvas) : List String :=
  (r.lines.drop r.offset.toNat).take linesPerPage.toNat

/-- The relation kept between the canvas and the reference model along a run. -/
def Refines (p : Int) (tc : TextCanvas) (r : RefCanvas) : Prop :=
  tc.lines = r.lines ∧ r.offset = max 0 tc.scrollOff ∧
    tc.scrollOff ≤ max 0 ((tc.lines.length : Int) - p) ∧
    (tc.scrollOff < 0 → (tc.lines.length : Int) < p) ∧ tc.lines.length ≤ 10000

/-! ## Basic facts about the operations -/

theorem goDiv_of_ne_zero (a b : Int) (hb : b ≠ 0) : goDiv a b = some (Int.tdiv a b) := by
  simp [goDiv, hb]

theorem clampOffset_nonneg (s t p : Int) : 0 ≤ clampOffset s t p := by
  unfold clampOffset
  dsimp only
  split_ifs <;> omega

theorem clampOffset_le (s t p : Int) (hp : 0 ≤ p) (ht : 0 ≤ t) : clampOffset s t p ≤ t := by
  unfold clampOffset
  dsimp only
  split_ifs <;> omega

theorem clampOffset_eq (s t p : Int) : clampOffset s t p = max 0 (min s (t - p)) := by
  unfold clampOffset
  dsimp only
  split_ifs <;> omega

/-- With a positive line height and a non-negative quotient, `render` returns:
its result is given in closed form. -/
theorem render_eq (face : String → Int) (tc : TextCanvas) (hl : tc.lineHeight ≠ 0)
    (hp : 0 ≤ Int.tdiv tc.height tc.lineHeight) :
    render face tc =
      some ({ tc with scrollOff := clampOffset tc.scrollOff tc.lines.length (Int.tdiv tc.height tc.lineHeight) },
        ⟨tc.width, tc.height, ⟨0, 0, 0, 255⟩, ⟨200, 200, 200, 255⟩,
          (((tc.lines.drop (clampOffset tc.scrollOff tc.lines.length
                (Int.tdiv tc.height tc.lineHeight)).toNat).take
              (Int.tdiv tc.height tc.lineHeight).toNat).foldl
            (drawLine face tc.lineHeight) ⟨fixedI 2, fixedI tc.lineHeight, []⟩).calls⟩) := by
  have h0 := clampOffset_nonneg tc.scrollOff tc.lines.length (Int.tdiv tc.height tc.lineHeight)
  have h1 := clampOffset_le tc.scrollOff tc.lines.length (Int.tdiv tc.height tc.lineHeight) hp
    (by omega)
  generalize hc : clampOffset tc.scrollOff tc.lines.length (Int.tdiv tc.height tc.lineHeight) = c
    at h0 h1
  generalize hq : Int.tdiv tc.height tc.lineHeight = p at hp hc
  simp only [render, renderBounds, goDiv_of_ne_zero _ _ hl, hq, hc]
  by_cases hs : c + p > (tc.lines.length : Int)
  · have hb : 0 ≤ c ∧ c ≤ (tc.lines.length : Int) ∧ (tc.lines.length : Int) ≤ tc.lines.length :=
      ⟨h0, h1, le_refl _⟩
    simp only [hs, if_true, goSlice, hb, and_self]
    have : List.take ((tc.lines.length : Int) - c).toNat (List.drop c.toNat tc.lines)
        = List.take p.toNat (List.drop c.toNat tc.lines) := by
      rw [List.take_of_length_le, List.take_of_length_le]
      · simp only [List.length_drop]; omega
      · simp only [List.length_drop]; omega
    rw [this]
  · have hb : 0 ≤ c ∧ c ≤ c + p ∧ c + p ≤ (tc.lines.length : Int) := ⟨h0, by omega, by omega⟩
    simp only [hs, if_false, goSlice, hb, and_self, if_true]
    have : (c + p - c).toNat = p.toNat := by congr 1; omega
    rw [this]

theorem Append_eq (tc : TextCanvas) (line : String) (hl : tc.lineHeight ≠ 0) :
    Append tc line = some (requestUpdate { tc with
      lines := trimLines (tc.lines ++ [line]),
      scrollOff := ((trimLines (tc.lines ++ [line])).length : Int)
        - Int.tdiv tc.height tc.lineHeight }) := by
  simp only [Append, goDiv_of_ne_zero _ _ hl]

theorem Scroll_eq (tc : TextCanvas) (offset : Int) (hl : tc.lineHeight ≠ 0) :
    Scroll tc offset = some (requestUpdate { tc with
      scrollOff :=
        if (if wrapInt (tc.scrollOff + offset) < 0 then 0 else wrapInt (tc.scrollOff + offset))
            > (tc.lines.length : Int) - Int.tdiv tc.height tc.lineHeight
        then (tc.lines.length : Int) - Int.tdiv tc.height tc.lineHeight
        else (if wrapInt (tc.scrollOff + offset) < 0 then 0
          else wrapInt (tc.scrollOff + offset)) }) := by
  simp only [Scroll, goDiv_of_ne_zero _ _ hl]

@[simp]
theorem requestUpdate_lines (tc : TextCanvas) : (requestUpdate tc).lines = tc.lines := by
  unfold requestUpdate; split <;> rfl

@[simp]
theorem requestUpdate_scrollOff (tc : TextCanvas) :
    (requestUpdate tc).scrollOff = tc.scrollOff := by
  unfold requestUpdate; split <;> rfl

@[simp]
theorem requestUpdate_lineHeight (tc : TextCanvas) :
    (requestUpdate tc).lineHeight = tc.lineHeight := by
  unfold requestUpdate; split <;> rfl

@[simp]
theorem requestUpdate_height (tc : TextCanvas) :
    (requestUpdate tc).height = tc.height := by
  unfold requestUpdate; split <;> rfl

@[simp]
theorem requestUpdate_width (tc : TextCanvas) :
    (requestUpdate tc).width = tc.width := by
  unfold requestUpdate; split <;> rfl

@[simp]
theorem requestUpdate_updateCh (tc : TextCanvas) :
    (requestUpdate tc).updateCh = true := by
  unfold requestUpdate; split <;> simp_all

/-- A mutator call succeeds on a canvas with a non-zero line height, and keeps
the geometry of the canvas. -/
theorem step_some (tc : TextCanvas) (op : Op) (hl : tc.lineHeight ≠ 0) :
    ∃ tc1, step tc op = some tc1 ∧ tc1.lineHeight = tc.lineHeight ∧ tc1.height = tc.height
      ∧ tc1.width = tc.width ∧ tc1.updateCh = true := by
  cases op with
  | append line => exact ⟨_, Append_eq tc line hl, by simp⟩
  | scroll offset => exact ⟨_, Scroll_eq tc offset hl, by simp⟩

theorem run_some (ops : List Op) : ∀ (tc : TextCanvas), tc.lineHeight ≠ 0 →
    ∃ tc1, run tc ops = some tc1 ∧ tc1.lineHeight = tc.lineHeight ∧ tc1.height = tc.height
      ∧ tc1.width = tc.width ∧ (ops ≠ [] → tc1.updateCh = true) := by
  induction ops with
  | nil => intro tc _; exact ⟨tc, rfl, rfl, rfl, rfl, fun h => absurd rfl h⟩
  | cons op ops ih =>
    intro tc hl
    obtain ⟨t1, h1, hlh, hh, hw, hu⟩ := step_some tc op hl
    obtain ⟨t2, h2, hlh2, hh2, hw2, hu2⟩ := ih t1 (by rw [hlh]; exact hl)
    refine ⟨t2, by simp [run, h1, h2], by rw [hlh2, hlh], by rw [hh2, hh], by rw [hw2, hw], ?_⟩
    intro _
    cases ops with
    | nil => simp [run] at h2; rw [← h2]; exact hu
    | cons o os => exact hu2 (by simp)

/-- What a successful construction returns. -/
theorem NewTextCanvas_eq (face : String → Int) (w h : Int) (tc0 : TextCanvas)
    (hc : NewTextCanvas face w h = some tc0) :
    tc0 = ⟨[], 0, 0, 14, w, h, false⟩ ∧ 0 ≤ Int.tdiv h 14 := by
  unfold NewTextCanvas at hc
  have h14 : (⟨[], 0, 0, 14, w, h, false⟩ : TextCanvas).lineHeight ≠ 0 := by
    show (14 : Int) ≠ 0
    decide
  by_cases hp : 0 ≤ Int.tdiv h 14
  · rw [render_eq face _ h14 hp] at hc
    simp only [Option.some.injEq] at hc
    refine ⟨?_, hp⟩
    rw [← hc]
    have : clampOffset 0 0 (Int.tdiv h 14) = 0 := by
      unfold clampOffset; dsimp only; split_ifs <;> omega
    simp [this]
  · exfalso
    have hb : renderBounds ⟨[], 0, 0, 14, w, h, false⟩ = some (0, Int.tdiv h 14) := by
      simp only [renderBounds, goDiv, clampOffset]
      simp
      constructor
      · intro; omega
      · omega
    have hs : goSlice ([] : List String) 0 (Int.tdiv h 14) = none := by
      simp only [goSlice]
      rw [if_neg]
      intro hx
      exact hp hx.2.1
    simp only [render, hb, hs] at hc
    simp at hc

theorem NewTextCanvas_some (face : String → Int) (w h : Int) (hh : 0 ≤ h) :
    NewTextCanvas face w h = some ⟨[], 0, 0, 14, w, h, false⟩ := by
  unfold NewTextCanvas
  have h14 : (⟨[], 0, 0, 14, w, h, false⟩ : TextCanvas).lineHeight ≠ 0 := by
    show (14 : Int) ≠ 0
    decide
  have hp : 0 ≤ Int.tdiv h 14 := Int.tdiv_nonneg hh (by decide)
  rw [render_eq face _ h14 hp]
  have : clampOffset 0 0 (Int.tdiv h 14) = 0 := by
    unfold clampOffset; dsimp only; split_ifs <;> omega
  simp [this]

/-! ## The line buffer under `Append` -/

/-- Appending to the last 10000 lines and cutting back to 10000 gives the last
10000 lines of the longer sequence. -/
theorem trimLines_snoc (l : List String) (x : String) :
    trimLines (l.drop (l.length - 10000) ++ [x]) = (l ++ [x]).drop ((l ++ [x]).length - 10000) := by
  unfold trimLines
  by_cases h : l.length < 10000
  · have h0 : l.length - 10000 = 0 := by omega
    have h1 : (l ++ [x]).length - 10000 = 0 := by
      rw [List.length_append, List.length_singleton]; omega
    rw [h0, h1]
    simp only [List.drop_zero]
    rw [if_neg]
    rw [List.length_append, List.length_singleton]; omega
  · have hlen : (l.drop (l.length - 10000) ++ [x]).length = 10001 := by
      rw [List.length_append, List.length_singleton, List.length_drop]; omega
    have hgt : (l.drop (l.length - 10000) ++ [x]).length > 10000 := by rw [hlen]; omega
    have h1 : (l ++ [x]).length - 10000 = (l.length - 10000) + 1 := by
      rw [List.length_append, List.length_singleton]; omega
    have e : (10001 - 10000 : Nat) = 1 := by norm_num
    rw [if_pos hgt, hlen, e, h1, ← List.drop_drop,
      @List.drop_append_of_le_length _ l [x] (l.length - 10000) (by omega)]

/-- The buffer after a run of `Append` calls, from any canvas whose buffer holds
the last 10000 lines of a history. -/
theorem appendAll_lines (ls : List String) : ∀ (tc : TextCanvas) (pre : List String),
    tc.lineHeight ≠ 0 → tc.lines = pre.drop (pre.length - 10000) →
    ∃ tc1, appendAll tc ls = some tc1 ∧
      tc1.lines = (pre ++ ls).drop ((pre ++ ls).length - 10000) := by
  induction ls with
  | nil => intro tc pre _ hp; exact ⟨tc, rfl, by simpa using hp⟩
  | cons x xs ih =>
    intro tc pre hl hp
    have ha := Append_eq tc x hl
    obtain ⟨t2, h2, hl2⟩ := ih (requestUpdate { tc with
      lines := trimLines (tc.lines ++ [x]),
      scrollOff := ((trimLines (tc.lines ++ [x])).length : Int)
        - Int.tdiv tc.height tc.lineHeight }) (pre ++ [x])
      (by rw [requestUpdate_lineHeight]; exact hl)
      (by rw [requestUpdate_lines]; show trimLines (tc.lines ++ [x]) = _
          rw [hp, trimLines_snoc])
    refine ⟨t2, ?_, ?_⟩
    · show run tc (Op.append x :: xs.map Op.append) = some t2
      rw [run]
      show (Append tc x).bind _ = _
      rw [ha, Option.some_bind]
      exact h2
    · rw [hl2, List.append_assoc]; rfl

theorem drop_range_map (f : Nat → String) (n k : Nat) :
    ((List.range n).map f).drop k = (List.range' k (n - k)).map f := by
  rw [← List.map_drop, List.range_eq_range']
  congr 1
  by_cases h : k ≤ n
  · have e : List.range' 0 n = List.range' 0 k ++ List.range' k (n - k) := by
      have := List.range'_append_1 0 k (n - k)
      rw [Nat.zero_add] at this
      rw [this]
      congr 1
      omega
    rw [e, List.drop_left']
    rw [List.length_range']
  · rw [List.drop_eq_nil_of_le (by rw [List.length_range']; omega)]
    rw [show n - k = 0 by omega]
    rfl

/-- C1. Starting from a freshly constructed canvas, after every one of a
sequence of `Append` calls (the first `k` of them, for every `k`) the buffer
has at most 10000 lines and is exactly the last `min k 10000` of the lines
appended so far, in their order; appending "line 0" .. "line 10049" leaves
"line 50" .. "line 10049". -/
theorem Append_buffer_bound (face : String → Int) (w h : Int) (tc0 : TextCanvas)
    (hc : NewTextCanvas face w h = some tc0) :
    (∀ (ls : List String) (k : Nat), k ≤ ls.length →
      ∃ tc, appendAll tc0 (ls.take k) = some tc ∧ tc.lines.length ≤ 10000 ∧
        tc.lines.length = min k 10000 ∧
        tc.lines = (ls.take k).drop (k - min k 10000)) ∧
    (∃ tc, appendAll tc0 ((List.range 10050).map lineLabel) = some tc ∧
        tc.lines.length = 10000 ∧
        tc.lines = (List.range' 50 10000).map lineLabel) := by
  obtain ⟨rfl, _⟩ := NewTextCanvas_eq face w h tc0 hc
  have h14 : (⟨[], 0, 0, 14, w, h, false⟩ : TextCanvas).lineHeight ≠ 0 := by
    show (14 : Int) ≠ 0
    decide
  have key : ∀ ls : List String, ∃ tc, appendAll ⟨[], 0, 0, 14, w, h, false⟩ ls = some tc ∧
      tc.lines = ls.drop (ls.length - 10000) := by
    intro ls
    obtain ⟨tc, h1, h2⟩ := appendAll_lines ls _ [] h14 rfl
    exact ⟨tc, h1, by rw [h2, List.nil_append]⟩
  constructor
  · intro ls k hk
    obtain ⟨tc, h1, h2⟩ := key (ls.take k)
    have hlen : (ls.take k).length = k := by rw [List.length_take]; omega
    rw [hlen] at h2
    refine ⟨tc, h1, ?_, ?_, ?_⟩
    · rw [h2, List.length_drop, hlen]; omega
    · rw [h2, List.length_drop, hlen]; omega
    · rw [h2, show k - min k 10000 = k - 10000 by omega]
  · obtain ⟨tc, h1, h2⟩ := key ((List.range 10050).map lineLabel)
    have e1 : (10050 - 10000 : Nat) = 50 := by norm_num
    have e2 : (10050 - 50 : Nat) = 10000 := by norm_num
    rw [List.length_map, List.length_range, drop_range_map, e1, e2] at h2
    refine ⟨tc, h1, ?_, ?_⟩
    · rw [h2, List.length_map, List.length_range']
    · rw [h2]

theorem Append_buffer_bound_witness :
    (∀ (ls : List String) (k : Nat), k ≤ ls.length →
      ∃ tc, appendAll ⟨[], 0, 0, 14, 800, 600, false⟩ (ls.take k) = some tc ∧
        tc.lines.length ≤ 10000 ∧ tc.lines.length = min k 10000 ∧
        tc.lines = (ls.take k).drop (k - min k 10000)) ∧
    (∃ tc, appendAll ⟨[], 0, 0, 14, 800, 600, false⟩ ((List.range 10050).map lineLabel) = some tc ∧
        tc.lines.length = 10000 ∧
        tc.lines = (List.range' 50 10000).map lineLabel) :=
  Append_buffer_bound face7x13 800 600 ⟨[], 0, 0, 14, 800, 600, false⟩ (by decide)

/-! ## The drawing loop -/

theorem foldl_drawLine (face : String → Int) (lh : Int) (vis : List String) :
    ∀ d : Drawer, (vis.foldl (drawLine face lh) d).calls
      = d.calls ++ marginCalls lh d.DotY vis := by
  induction vis with
  | nil => intro d; simp [marginCalls]
  | cons x xs ih =>
    intro d
    rw [List.foldl_cons, ih]
    simp [drawLine, Drawer.DrawString, marginCalls]

theorem marginCalls_text (lh : Int) (vis : List String) :
    ∀ y : Int, (marginCalls lh y vis).map DrawCall.text = vis := by
  induction vis with
  | nil => intro y; rfl
  | cons x xs ih => intro y; simp [marginCalls, ih]

theorem wrapInt32_add (a b : Int) :
    wrapInt32 (wrapInt32 a + wrapInt32 b) = wrapInt32 (a + b) := by
  unfold wrapInt32
  omega

theorem marginCalls_get (lh : Int) (vis : List String) :
    ∀ (a : Int) (k : Nat) (c : DrawCall), (marginCalls lh (wrapInt32 a) vis)[k]? = some c →
      c.X = fixedI 2 ∧ c.Y = wrapInt32 (a + (k : Int) * (lh * 64)) ∧ vis[k]? = some c.text := by
  induction vis with
  | nil => intro a k c h; simp [marginCalls] at h
  | cons x xs ih =>
    intro a k c h
    cases k with
    | zero =>
      simp [marginCalls] at h
      subst h
      simp
    | succ n =>
      simp only [marginCalls, List.getElem?_cons_succ] at h
      rw [fixedI, wrapInt32_add] at h
      obtain ⟨h1, h2, h3⟩ := ih _ n c h
      refine ⟨h1, ?_, by simpa using h3⟩
      rw [h2]
      congr 1
      push_cast
      ring

/-- Closed form of `render` in terms of `marginCalls`. -/
theorem render_calls (face : String → Int) (tc : TextCanvas) (hl : 0 < tc.lineHeight)
    (hh : 0 ≤ tc.height) :
    render face tc =
      some ({ tc with scrollOff := clampOffset tc.scrollOff tc.lines.length (Int.tdiv tc.height tc.lineHeight) },
        ⟨tc.width, tc.height, ⟨0, 0, 0, 255⟩, ⟨200, 200, 200, 255⟩,
          marginCalls tc.lineHeight (fixedI tc.lineHeight)
            (visibleLines tc (Int.tdiv tc.height tc.lineHeight))⟩) := by
  rw [render_eq face tc (by omega) (Int.tdiv_nonneg hh (by omega)), foldl_drawLine]
  rfl

/-! ## Rendering -/

/-- C4. For a canvas with `height ≥ 0` (and the positive line height every
canvas has), `render` returns, and the texts it draws are, in buffer order,
exactly the lines with indices in `[s, min (s + linesPerPage) totalLines)`
where `s = max 0 (min scrollOff (totalLines - linesPerPage))`; with fewer
lines than a page all lines are drawn from index 0, otherwise exactly
`linesPerPage` lines are drawn. -/
theorem render_visible_range (face : String → Int) (tc : TextCanvas)
    (hl : 0 < tc.lineHeight) (hh : 0 ≤ tc.height) :
    ∃ tc1 img, render face tc = some (tc1, img) ∧
      ∀ (p t s e : Int), p = Int.tdiv tc.height tc.lineHeight → t = tc.lines.length →
        s = max 0 (min tc.scrollOff (t - p)) → e = min (s + p) t →
        img.calls.map DrawCall.text = (tc.lines.drop s.toNat).take (e - s).toNat ∧
        (img.calls.length : Int) = e - s ∧
        (∀ k : Nat, (k : Int) < e - s →
          (img.calls.map DrawCall.text)[k]? = tc.lines[s.toNat + k]?) ∧
        (t < p → s = 0 ∧ img.calls.map DrawCall.text = tc.lines ∧ (img.calls.length : Int) < p) ∧
        (p ≤ t → (img.calls.length : Int) = p) := by
  refine ⟨_, _, render_calls face tc hl hh, ?_⟩
  dsimp only
  intro p t s e hp ht hs he
  have hp0 : 0 ≤ p := by rw [hp]; exact Int.tdiv_nonneg hh (by omega)
  have hc : clampOffset tc.scrollOff tc.lines.length (Int.tdiv tc.height tc.lineHeight) = s := by
    rw [clampOffset_eq, hs, ht, hp]
  have hs0 : 0 ≤ s := by omega
  have hst : s ≤ t := by omega
  have htxt : (marginCalls tc.lineHeight (fixedI tc.lineHeight)
      (visibleLines tc (Int.tdiv tc.height tc.lineHeight))).map DrawCall.text
      = (tc.lines.drop s.toNat).take (e - s).toNat := by
    rw [marginCalls_text, visibleLines, hc, ← hp]
    by_cases hcase : s + p ≤ t
    · rw [show e - s = p by omega]
    · rw [List.take_of_length_le, List.take_of_length_le]
      · rw [List.length_drop]; omega
      · rw [List.length_drop]; omega
  have hlen : ((marginCalls tc.lineHeight (fixedI tc.lineHeight)
      (visibleLines tc (Int.tdiv tc.height tc.lineHeight))).length : Int) = e - s := by
    have := congrArg List.length htxt
    rw [List.length_map, List.length_take, List.length_drop] at this
    rw [this]; omega
  refine ⟨htxt, hlen, ?_, ?_, ?_⟩
  · intro k hk
    rw [htxt, List.getElem?_take_of_lt (by omega), List.getElem?_drop]
  · intro htp
    have hs00 : s = 0 := by omega
    refine ⟨hs00, ?_, by omega⟩
    rw [htxt, hs00, show e = t by omega]
    simp [ht]
  · intro hpt
    omega

theorem render_visible_range_witness :
    (0 : Int) < sampleCanvas.lineHeight ∧ (0 : Int) ≤ sampleCanvas.height ∧
    ∃ tc1 img, render face7x13 sampleCanvas = some (tc1, img) ∧
      ∀ (p t s e : Int), p = Int.tdiv sampleCanvas.height sampleCanvas.lineHeight →
        t = sampleCanvas.lines.length →
        s = max 0 (min sampleCanvas.scrollOff (t - p)) → e = min (s + p) t →
        img.calls.map DrawCall.text = (sampleCanvas.lines.drop s.toNat).take (e - s).toNat ∧
        (img.calls.length : Int) = e - s ∧
        (∀ k : Nat, (k : Int) < e - s →
          (img.calls.map DrawCall.text)[k]? = sampleCanvas.lines[s.toNat + k]?) ∧
        (t < p → s = 0 ∧ img.calls.map DrawCall.text = sampleCanvas.lines ∧
          (img.calls.length : Int) < p) ∧
        (p ≤ t → (img.calls.length : Int) = p) :=
  ⟨by decide, by decide,
    render_visible_range face7x13 sampleCanvas (by decide) (by decide)⟩

/-- C5. For a canvas with `height ≥ 0` and `lineHeight > 0`, whatever its
buffer and its `scrollOff`, the bounds `render` computes satisfy
`0 ≤ start ≤ end ≤ len(lines)`; the slice expression is in range and `render`
returns. -/
theorem render_slice_in_range (face : String → Int) (tc : TextCanvas)
    (hl : 0 < tc.lineHeight) (hh : 0 ≤ tc.height) :
    ∃ start stop : Int, renderBounds tc = some (start, stop) ∧
      0 ≤ start ∧ start ≤ stop ∧ stop ≤ (tc.lines.length : Int) ∧
      (goSlice tc.lines start stop).isSome = true ∧ (render face tc).isSome = true := by
  have hp : 0 ≤ Int.tdiv tc.height tc.lineHeight := Int.tdiv_nonneg hh (by omega)
  have h0 := clampOffset_nonneg tc.scrollOff tc.lines.length (Int.tdiv tc.height tc.lineHeight)
  have h1 := clampOffset_le tc.scrollOff tc.lines.length (Int.tdiv tc.height tc.lineHeight) hp
    (by omega)
  have hb : renderBounds tc = some (clampOffset tc.scrollOff tc.lines.length
      (Int.tdiv tc.height tc.lineHeight),
      if clampOffset tc.scrollOff tc.lines.length (Int.tdiv tc.height tc.lineHeight)
          + Int.tdiv tc.height tc.lineHeight > (tc.lines.length : Int)
        then (tc.lines.length : Int)
        else clampOffset tc.scrollOff tc.lines.length (Int.tdiv tc.height tc.lineHeight)
          + Int.tdiv tc.height tc.lineHeight) := by
    simp only [renderBounds, goDiv_of_ne_zero _ _ (show tc.lineHeight ≠ 0 by omega)]
  refine ⟨_, _, hb, h0, ?_, ?_, ?_, ?_⟩
  · split_ifs <;> omega
  · split_ifs <;> omega
  · have : 0 ≤ clampOffset tc.scrollOff tc.lines.length (Int.tdiv tc.height tc.lineHeight) ∧
        clampOffset tc.scrollOff tc.lines.length (Int.tdiv tc.height tc.lineHeight)
          ≤ (if clampOffset tc.scrollOff tc.lines.length (Int.tdiv tc.height tc.lineHeight)
              + Int.tdiv tc.height tc.lineHeight > (tc.lines.length : Int)
            then (tc.lines.length : Int)
            else clampOffset tc.scrollOff tc.lines.length (Int.tdiv tc.height tc.lineHeight)
              + Int.tdiv tc.height tc.lineHeight) ∧
        (if clampOffset tc.scrollOff tc.lines.length (Int.tdiv tc.height tc.lineHeight)
              + Int.tdiv tc.height tc.lineHeight > (tc.lines.length : Int)
            then (tc.lines.length : Int)
            else clampOffset tc.scrollOff tc.lines.length (Int.tdiv tc.height tc.lineHeight)
              + Int.tdiv tc.height tc.lineHeight) ≤ (tc.lines.length : Int) := by
      refine ⟨h0, ?_, ?_⟩ <;> split_ifs <;> omega
    rw [goSlice, if_pos this]
    rfl
  · rw [render_calls face tc hl hh]
    rfl

theorem render_slice_in_range_witness :
    (0 : Int) < sampleCanvas.lineHeight ∧ (0 : Int) ≤ sampleCanvas.height ∧
    ∃ start stop : Int, renderBounds sampleCanvas = some (start, stop) ∧
      0 ≤ start ∧ start ≤ stop ∧ stop ≤ (sampleCanvas.lines.length : Int) ∧
      (goSlice sampleCanvas.lines start stop).isSome = true ∧
      (render face7x13 sampleCanvas).isSome = true :=
  ⟨by decide, by decide, render_slice_in_range face7x13 sampleCanvas (by decide) (by decide)⟩

/-- C7. For a canvas with `height ≥ 0`, two calls of `render` in succession
both return and produce the same frame: the same rectangle and colours and the
same strings at the same positions.  The first call may change `scrollOff`;
the second leaves the canvas as the first left it. -/
theorem render_twice_same_frame (face : String → Int) (tc : TextCanvas)
    (hl : 0 < tc.lineHeight) (hh : 0 ≤ tc.height) :
    ∃ tc1 img1 tc2 img2, render face tc = some (tc1, img1) ∧
      render face tc1 = some (tc2, img2) ∧ img2 = img1 ∧ tc2 = tc1 := by
  have hp : 0 ≤ Int.tdiv tc.height tc.lineHeight := Int.tdiv_nonneg hh (by omega)
  have key : clampOffset (clampOffset tc.scrollOff tc.lines.length
      (Int.tdiv tc.height tc.lineHeight)) tc.lines.length (Int.tdiv tc.height tc.lineHeight)
      = clampOffset tc.scrollOff tc.lines.length (Int.tdiv tc.height tc.lineHeight) := by
    simp only [clampOffset]
    split_ifs <;> omega
  refine ⟨_, _, _, _, render_calls face tc hl hh, render_calls face _ hl hh, ?_, ?_⟩
  · simp only [visibleLines, key]
  · simp only [key]

theorem render_twice_same_frame_witness :
    (0 : Int) < sampleCanvas.lineHeight ∧ (0 : Int) ≤ sampleCanvas.height ∧
    ∃ tc1 img1 tc2 img2, render face7x13 sampleCanvas = some (tc1, img1) ∧
      render face7x13 tc1 = some (tc2, img2) ∧ img2 = img1 ∧ tc2 = tc1 :=
  ⟨by decide, by decide, render_twice_same_frame face7x13 sampleCanvas (by decide) (by decide)⟩

/-- C9. For a canvas with `height ≥ 0`, the k-th string `render` draws starts
with the dot at the left margin `x = 2` and the baseline `y = lineHeight * (k + 1)`
(both in 26.6 fixed point), whatever the font face reports as the advance of the
strings drawn before it: the frame is the same for every face. -/
theorem render_dot_positions (face : String → Int) (tc : TextCanvas)
    (hl : 0 < tc.lineHeight) (hh : 0 ≤ tc.height) :
    ∃ tc1 img, render face tc = some (tc1, img) ∧
      (∀ (k : Nat) (c : DrawCall), img.calls[k]? = some c →
        c.X = fixedI 2 ∧ c.Y = fixedI (tc.lineHeight * ((k : Int) + 1))) ∧
      (∀ face2 : String → Int, render face2 tc = some (tc1, img)) := by
  refine ⟨_, _, render_calls face tc hl hh, ?_, fun face2 => render_calls face2 tc hl hh⟩
  intro k c hc
  have hc1 : (marginCalls tc.lineHeight (wrapInt32 (tc.lineHeight * 64))
      (visibleLines tc (Int.tdiv tc.height tc.lineHeight)))[k]? = some c := hc
  obtain ⟨h1, h2, _⟩ := marginCalls_get _ _ _ _ _ hc1
  refine ⟨h1, ?_⟩
  rw [h2, fixedI]
  congr 1
  ring

theorem render_dot_positions_witness :
    (0 : Int) < sampleCanvas.lineHeight ∧ (0 : Int) ≤ sampleCanvas.height ∧
    ∃ tc1 img, render face7x13 sampleCanvas = some (tc1, img) ∧
      (∀ (k : Nat) (c : DrawCall), img.calls[k]? = some c →
        c.X = fixedI 2 ∧ c.Y = fixedI (sampleCanvas.lineHeight * ((k : Int) + 1))) ∧
      (∀ face2 : String → Int, render face2 sampleCanvas = some (tc1, img)) :=
  ⟨by decide, by decide, render_dot_positions face7x13 sampleCanvas (by decide) (by decide)⟩

/-! ## The update channel -/

/-- C8. With the channel as a one-slot flag and a tick as one sequential step,
on a canvas on which `render` does not panic (a non-zero line height and a
non-negative number of lines per page, as in every canvas `NewTextCanvas`
returns): after `N ≥ 1` mutator calls with no tick in between, the slot holds
exactly one request (a further `requestUpdate` changes nothing); the next tick
receives it, runs `render` once and leaves the slot empty; the tick after that
renders nothing and changes nothing. -/
theorem updates_coalesce (face : String → Int) (tc : TextCanvas)
    (hl : tc.lineHeight ≠ 0) (hp : 0 ≤ Int.tdiv tc.height tc.lineHeight)
    (ops : List Op) (hN : 1 ≤ ops.length) :
    ∃ tc1, run tc ops = some tc1 ∧ tc1.updateCh = true ∧ requestUpdate tc1 = tc1 ∧
      ∃ tc2 img, tick face tc1 = some (tc2, some img) ∧
        render face { tc1 with updateCh := false } = some (tc2, img) ∧
        tc2.updateCh = false ∧ tick face tc2 = some (tc2, none) := by
  obtain ⟨tc1, hrun, hlh, hht, _, hu⟩ := run_some ops tc hl
  have hu1 : tc1.updateCh = true := hu (by intro h; rw [h] at hN; simp at hN)
  have hr := render_eq face { tc1 with updateCh := false } (by rw [hlh]; exact hl)
    (by rw [hht, hlh]; exact hp)
  refine ⟨tc1, hrun, hu1, ?_, _, _, ?_, hr, rfl, ?_⟩
  · simp [requestUpdate, hu1]
  · simp only [tick, hu1, if_true, hr]
  · simp [tick]

theorem updates_coalesce_witness :
    sampleCanvas.lineHeight ≠ 0 ∧
    (0 : Int) ≤ Int.tdiv sampleCanvas.height sampleCanvas.lineHeight ∧
    1 ≤ [Op.append "d", Op.scroll (-1), Op.append "e"].length ∧
    ∃ tc1, run sampleCanvas [Op.append "d", Op.scroll (-1), Op.append "e"] = some tc1 ∧
      tc1.updateCh = true ∧ requestUpdate tc1 = tc1 ∧
      ∃ tc2 img, tick face7x13 tc1 = some (tc2, some img) ∧
        render face7x13 { tc1 with updateCh := false } = some (tc2, img) ∧
        tc2.updateCh = false ∧ tick face7x13 tc2 = some (tc2, none) :=
  ⟨by decide, by decide, by decide,
    updates_coalesce face7x13 sampleCanvas (by decide) (by decide) _ (by decide)⟩

/-! ## Where the stored offset leaves the range `[0, max 0 (totalLines - linesPerPage)]` -/

/-- C2 at the failing input: on a fresh 800x600 canvas (42 lines per page) one
`Append` leaves `scrollOff = 1 - 42 = -41`, where
`max 0 (totalLines - linesPerPage) = 0`. -/
theorem Append_scrollOff_below_zero :
    NewTextCanvas face7x13 800 600 = some ⟨[], 0, 0, 14, 800, 600, false⟩ ∧
    Append ⟨[], 0, 0, 14, 800, 600, false⟩ "line 0"
      = some ⟨["line 0"], 0, -41, 14, 800, 600, true⟩ ∧
    linesPerPage ⟨["line 0"], 0, -41, 14, 800, 600, true⟩ = some 42 ∧
    (-41 : Int) ≠ max 0 ((["line 0"].length : Int) - 42) := by
  decide

/-- C3 at the failing input: on a fresh 800x600 canvas `Scroll(0)` first floors
the offset at 0 and then lowers it to `maxOff = 0 - 42`, so the offset ends
below 0. -/
theorem Scroll_scrollOff_below_zero :
    NewTextCanvas face7x13 800 600 = some ⟨[], 0, 0, 14, 800, 600, false⟩ ∧
    Scroll ⟨[], 0, 0, 14, 800, 600, false⟩ 0 = some ⟨[], 0, -42, 14, 800, 600, true⟩ ∧
    linesPerPage ⟨[], 0, -42, 14, 800, 600, true⟩ = some 42 ∧
    ¬ ((0 : Int) ≤ -42 ∧ (-42 : Int) ≤ max 0 ((([] : List String).length : Int) - 42)) := by
  decide

/-- C6 at the failing input: on the canvas reached from a fresh 800x600 canvas
by one `Append`, `render` keeps the buffer and overwrites `scrollOff = -41`
with 0. -/
theorem render_overwrites_scrollOff :
    NewTextCanvas face7x13 800 600 = some ⟨[], 0, 0, 14, 800, 600, false⟩ ∧
    run ⟨[], 0, 0, 14, 800, 600, false⟩ [Op.append "line 0"]
      = some ⟨["line 0"], 0, -41, 14, 800, 600, true⟩ ∧
    (render face7x13 ⟨["line 0"], 0, -41, 14, 800, 600, true⟩).map Prod.fst
      = some ⟨["line 0"], 0, 0, 14, 800, 600, true⟩ ∧
    (tick face7x13 ⟨["line 0"], 0, -41, 14, 800, 600, true⟩).map Prod.fst
      = some ⟨["line 0"], 0, 0, 14, 800, 600, false⟩ := by
  decide

/-- What `Append` stores: the offset of the tail, with no floor at 0. -/
theorem Append_scrollOff_eq (tc : TextCanvas) (line : String) (hl : tc.lineHeight ≠ 0) :
    ∃ tc1, Append tc line = some tc1 ∧
      tc1.scrollOff = (tc1.lines.length : Int) - Int.tdiv tc.height tc.lineHeight :=
  ⟨_, Append_eq tc line hl, by simp⟩

/-- What `Scroll` stores: never more than `max 0 maxOff`; at least 0 when the
buffer fills a page, and `maxOff` itself when it does not. -/
theorem Scroll_scrollOff_bounds (tc : TextCanvas) (offset : Int) (hl : tc.lineHeight ≠ 0) :
    ∃ tc1, Scroll tc offset = some tc1 ∧ tc1.lines = tc.lines ∧
      tc1.scrollOff ≤ max 0 ((tc.lines.length : Int) - Int.tdiv tc.height tc.lineHeight) ∧
      (Int.tdiv tc.height tc.lineHeight ≤ (tc.lines.length : Int) → 0 ≤ tc1.scrollOff) ∧
      ((tc.lines.length : Int) < Int.tdiv tc.height tc.lineHeight →
        tc1.scrollOff = (tc.lines.length : Int) - Int.tdiv tc.height tc.lineHeight) := by
  refine ⟨_, Scroll_eq tc offset hl, by simp, ?_, ?_, ?_⟩ <;>
    simp only [requestUpdate_scrollOff] <;> split_ifs <;> omega

/-- What `render` stores: the buffer as it was and the clamped offset. -/
theorem render_state (face : String → Int) (tc : TextCanvas) (hl : 0 < tc.lineHeight)
    (hh : 0 ≤ tc.height) :
    ∃ tc1 img, render face tc = some (tc1, img) ∧ tc1.lines = tc.lines ∧
      tc1.scrollOff
        = max 0 (min tc.scrollOff ((tc.lines.length : Int) - Int.tdiv tc.height tc.lineHeight)) :=
  ⟨_, _, render_calls face tc hl hh, rfl, clampOffset_eq _ _ _⟩

/-! ## Refinement of the reference model -/

theorem wrapInt_eq (x : Int) (h1 : minInt ≤ x) (h2 : x ≤ maxInt) : wrapInt x = x := by
  unfold minInt at h1
  unfold maxInt at h2
  unfold wrapInt
  omega

theorem trimLines_eq (l : List String) : trimLines l = l.drop (l.length - 10000) := by
  unfold trimLines
  split_ifs with h
  · rfl
  · rw [show l.length - 10000 = 0 by omega, List.drop_zero]

theorem trimLines_length (l : List String) : (trimLines l).length ≤ 10000 := by
  rw [trimLines_eq, List.length_drop]; omega

theorem step_refines (p : Int) (tc : TextCanvas) (r : RefCanvas) (op : Op)
    (hl : tc.lineHeight ≠ 0) (hp : p = Int.tdiv tc.height tc.lineHeight) (hp0 : 0 ≤ p)
    (hd : ∀ d, op = Op.scroll d → minInt ≤ d ∧ d ≤ maxInt - 10000)
    (inv : Refines p tc r) :
    ∃ tc1, step tc op = some tc1 ∧ Refines p tc1 (refStep p r op) ∧
      tc1.lineHeight = tc.lineHeight ∧ tc1.height = tc.height := by
  obtain ⟨i1, i2, i3, i4, i5⟩ := inv
  cases op with
  | append line =>
    refine ⟨_, Append_eq tc line hl, ?_, by simp, by simp⟩
    have hlen := trimLines_length (tc.lines ++ [line])
    simp only [Refines, refStep, refAppend, requestUpdate_lines, requestUpdate_scrollOff,
      ← i1, ← trimLines_eq, ← hp]
    refine ⟨trivial, trivial, ?_, ?_, hlen⟩ <;> omega
  | scroll d =>
    refine ⟨_, Scroll_eq tc d hl, ?_, by simp, by simp⟩
    obtain ⟨hd1, hd2⟩ := hd d rfl
    simp only [Refines, refStep, refScroll, requestUpdate_lines, requestUpdate_scrollOff,
      ← i1, ← hp, i2]
    by_cases hc : (tc.lines.length : Int) < p
    · refine ⟨trivial, ?_, ?_, ?_, i5⟩ <;> split_ifs <;> omega
    · have i3a : tc.scrollOff ≤ (tc.lines.length : Int) - p := by
        rw [max_eq_right (by omega)] at i3; exact i3
      have i4a : 0 ≤ tc.scrollOff := by
        by_contra hneg
        exact hc (i4 (by omega))
      have hw : wrapInt (tc.scrollOff + d) = tc.scrollOff + d := by
        apply wrapInt_eq
        · unfold minInt at *; omega
        · unfold maxInt at *; omega
      rw [hw]
      refine ⟨trivial, ?_, ?_, ?_, i5⟩ <;> split_ifs <;> omega

theorem run_refines (p : Int) (ops : List Op) : ∀ (tc : TextCanvas) (r : RefCanvas),
    tc.lineHeight ≠ 0 → p = Int.tdiv tc.height tc.lineHeight → 0 ≤ p →
    (∀ d, Op.scroll d ∈ ops → minInt ≤ d ∧ d ≤ maxInt - 10000) → Refines p tc r →
    ∃ tc1, run tc ops = some tc1 ∧ Refines p tc1 (refRun p r ops) ∧
      tc1.lineHeight = tc.lineHeight ∧ tc1.height = tc.height := by
  induction ops with
  | nil => intro tc r _ _ _ _ inv; exact ⟨tc, rfl, inv, rfl, rfl⟩
  | cons op ops ih =>
    intro tc r hl hp hp0 hd inv
    obtain ⟨t1, h1, inv1, hl1, hh1⟩ := step_refines p tc r op hl hp hp0
      (fun d hop => hd d (by rw [hop]; exact List.mem_cons_self _ _)) inv
    obtain ⟨t2, h2, inv2, hl2, hh2⟩ := ih t1 (refStep p r op) (by rw [hl1]; exact hl)
      (by rw [hl1, hh1]; exact hp) hp0 (fun d hm => hd d (List.mem_cons_of_mem _ hm)) inv1
    refine ⟨t2, ?_, inv2, by rw [hl2, hl1], by rw [hh2, hh1]⟩
    rw [run, h1, Option.some_bind]
    exact h2

/-- C10 as stated fails: on a 800x14 canvas (one line per page) holding "a" and
"b" with offset 1, `Scroll(maxInt)` wraps `1 + maxInt` around to `minInt`, which
is floored to 0, so the canvas shows "a"; the reference model, clamping
`1 + maxInt` from above, keeps offset 1 and shows "b". -/
theorem eager_model_differs_on_overflow :
    NewTextCanvas face7x13 800 14 = some ⟨[], 0, 0, 14, 800, 14, false⟩ ∧
    linesPerPage ⟨[], 0, 0, 14, 800, 14, false⟩ = some 1 ∧
    run ⟨[], 0, 0, 14, 800, 14, false⟩ [Op.append "a", Op.append "b", Op.scroll maxInt]
      = some ⟨["a", "b"], 0, 0, 14, 800, 14, true⟩ ∧
    refRun 1 ⟨[], 0⟩ [Op.append "a", Op.append "b", Op.scroll maxInt] = ⟨["a", "b"], 1⟩ ∧
    max 0 (⟨["a", "b"], 0, 0, 14, 800, 14, true⟩ : TextCanvas).scrollOff
      ≠ (⟨["a", "b"], 1⟩ : RefCanvas).offset ∧
    (render face7x13 ⟨["a", "b"], 0, 0, 14, 800, 14, true⟩).map
        (fun x => x.2.calls.map DrawCall.text) = some ["a"] ∧
    refVisible 1 ⟨["a", "b"], 1⟩ = ["b"] := by
  decide

/-- C10, amended. For every `height ≥ 0` and every sequence of `Append` and
`Scroll` calls on a freshly constructed canvas in which every `Scroll` delta is
a Go int not above `maxInt - 10000` (so that `scrollOff + delta` cannot wrap
around): the run and the following `render` return, `max 0 scrollOff` equals
the offset of the eagerly clamping reference model, the buffers agree, `render`
draws the lines the reference model shows, and `scrollOff` is negative only
while `totalLines < linesPerPage`. -/
theorem lazy_clamp_matches_eager (face : String → Int) (w h : Int) (hh : 0 ≤ h)
    (ops : List Op) (hd : ∀ d, Op.scroll d ∈ ops → minInt ≤ d ∧ d ≤ maxInt - 10000) :
    ∃ tc0 tc tc1 img, NewTextCanvas face w h = some tc0 ∧ run tc0 ops = some tc ∧
      render face tc = some (tc1, img) ∧
      max 0 tc.scrollOff = (refRun (Int.tdiv h 14) ⟨[], 0⟩ ops).offset ∧
      tc.lines = (refRun (Int.tdiv h 14) ⟨[], 0⟩ ops).lines ∧
      img.calls.map DrawCall.text
        = refVisible (Int.tdiv h 14) (refRun (Int.tdiv h 14) ⟨[], 0⟩ ops) ∧
      (tc.scrollOff < 0 → (tc.lines.length : Int) < Int.tdiv h 14) := by
  have hp0 : 0 ≤ Int.tdiv h 14 := Int.tdiv_nonneg hh (by decide)
  have h14 : (⟨[], 0, 0, 14, w, h, false⟩ : TextCanvas).lineHeight ≠ 0 := by
    show (14 : Int) ≠ 0
    decide
  have inv0 : Refines (Int.tdiv h 14) ⟨[], 0, 0, 14, w, h, false⟩ ⟨[], 0⟩ := by
    refine ⟨rfl, rfl, ?_, ?_, ?_⟩
    · show (0 : Int) ≤ max 0 (0 - Int.tdiv h 14)
      omega
    · intro hneg
      have hneg0 : (0 : Int) < 0 := hneg
      omega
    · show 0 ≤ 10000
      omega
  obtain ⟨tc, hrun, ⟨i1, i2, i3, i4, _⟩, hlh, hht⟩ :=
    run_refines (Int.tdiv h 14) ops _ _ h14 rfl hp0 hd inv0
  have hlh1 : tc.lineHeight = 14 := hlh
  have hht1 : tc.height = h := hht
  have hr := render_calls face tc (by rw [hlh1]; decide) (by rw [hht1]; exact hh)
  rw [hlh1, hht1] at hr
  refine ⟨_, tc, _, _, NewTextCanvas_some face w h hh, hrun, hr, i2.symm, i1, ?_, i4⟩
  have hc : clampOffset tc.scrollOff tc.lines.length (Int.tdiv h 14)
      = (refRun (Int.tdiv h 14) ⟨[], 0⟩ ops).offset := by
    rw [i2, clampOffset_eq]
    omega
  show (marginCalls 14 (fixedI 14) (visibleLines tc (Int.tdiv h 14))).map DrawCall.text = _
  rw [marginCalls_text, visibleLines, hc, refVisible, i1]

theorem lazy_clamp_matches_eager_witness :
    (0 : Int) ≤ 600 ∧
    (∀ d, Op.scroll d ∈ [Op.append "a", Op.scroll 5, Op.append "b", Op.scroll (-1)] →
      minInt ≤ d ∧ d ≤ maxInt - 10000) ∧
    ∃ tc0 tc tc1 img, NewTextCanvas face7x13 800 600 = some tc0 ∧
      run tc0 [Op.append "a", Op.scroll 5, Op.append "b", Op.scroll (-1)] = some tc ∧
      render face7x13 tc = some (tc1, img) ∧
      max 0 tc.scrollOff = (refRun (Int.tdiv 600 14) ⟨[], 0⟩
        [Op.append "a", Op.scroll 5, Op.append "b", Op.scroll (-1)]).offset ∧
      tc.lines = (refRun (Int.tdiv 600 14) ⟨[], 0⟩
        [Op.append "a", Op.scroll 5, Op.append "b", Op.scroll (-1)]).lines ∧
      img.calls.map DrawCall.text
        = refVisible (Int.tdiv 600 14) (refRun (Int.tdiv 600 14) ⟨[], 0⟩
          [Op.append "a", Op.scroll 5, Op.append "b", Op.scroll (-1)]) ∧
      (tc.scrollOff < 0 → (tc.lines.length : Int) < Int.tdiv 600 14) :=
  have hd : ∀ d, Op.scroll d ∈ [Op.append "a", Op.scroll 5, Op.append "b", Op.scroll (-1)] →
      minInt ≤ d ∧ d ≤ maxInt - 10000 := by
    intro d hm
    simp at hm
    rcases hm with rfl | rfl <;> decide
  ⟨by decide, hd, lazy_clamp_matches_eager face7x13 800 600 (by decide) _ hd⟩

end Fyneterm
